import Mathlib

/-
Verification of the deaconn connection wrapper (conn.go).

The wrapper retrofits deadline support onto a duplex byte stream: a
background reader pump publishes chunks onto a handoff channel, the read
path drains a pending-bytes buffer before pulling new chunks, the write
path races an asynchronous write against cancellation and deadline
signals, and the deadline setters gate on the cancellation signal.

Bytes are modelled as natural numbers.  Channel/select nondeterminism is
made explicit: the nonblocking first select in Read takes a boolean
`pick` resolving the random choice when both signal cases are ready, and
each blocking select takes an event parameter describing which case the
wait resolved to first.
-/

/-- Errors observable through the wrapper, modelling the Go error values
used in conn.go: io.EOF, os.ErrDeadlineExceeded, net.ErrClosed, and
pass-through transport errors. -/
inductive NetErr where
  | eof
  | deadlineExceeded
  | errClosed
  | transport (code : Nat)
deriving DecidableEq, Repr

/-- Modelled from the spec: the deadline primitive (package deadline of
this repository, not under src) stores one absolute expiry instant and a
rearmable cancellation signal; `fired` records whether the signal is
currently observable via Done().  Firing is an environment-driven event,
so only the stored configuration is kept here. -/
structure Deadline where
  expiry : Int
  fired  : Bool
deriving DecidableEq, Repr

/-- Modelled from the spec: Set(t) stores the new absolute expiry and
supersedes any previously scheduled firing, disarming it before arming
the new configuration (a zero t means the signal never fires until set
again; a later firing is applied by the environment, not by Set). -/
def Deadline.set (_ : Deadline) (t : Int) : Deadline :=
  { expiry := t, fired := false }

/-- State of the connection wrapper (struct conn in conn.go).  `closed`
models whether ctx.Done() is observable (ctxCancel has run);
`rxDataPending` is the pending-bytes carry-over buffer; the two Deadline
fields model the rxDeadline and txDeadline primitives.  The inner stream
and the rxData channel are interacted with through event parameters. -/
structure Conn where
  closed        : Bool
  rxDataPending : List Nat
  rxDeadline    : Deadline
  txDeadline    : Deadline
deriving DecidableEq, Repr

/-- Outcome of the nonblocking select at the top of conn.Read. -/
inductive Sig where
  | noSignal
  | closedSig
  | deadlineSig
deriving DecidableEq, Repr

/-- The first select in conn.Read: nonblocking (it has a default case).
Go semantics: if at least one channel case is ready, one of the ready
cases is chosen (uniformly at random when several are ready, resolved
here by `pick`); the default branch runs only when no case is ready. -/
def selectNonblocking (closed fired pick : Bool) : Sig :=
  if closed && fired then (if pick then Sig.closedSig else Sig.deadlineSig)
  else if closed then Sig.closedSig
  else if fired then Sig.deadlineSig
  else Sig.noSignal

/-- Resolution of the blocking select in conn.Read: which case the wait
observed first — the cancellation signal, the read-deadline signal, a
chunk received from the rxData channel, or the rxData channel found
closed (ok = false). -/
inductive RxEvent where
  | closedSig
  | deadlineSig
  | chunk (data : List Nat)
  | chanClosed
deriving DecidableEq, Repr

/-- Result of one conn.Read call: the returned byte count, the bytes
written into the caller's destination buffer, the returned error, and
the connection state after the call. -/
structure ReadResult where
  n        : Nat
  bytesOut : List Nat
  err      : Option NetErr
  conn     : Conn
deriving DecidableEq, Repr

/-- conn.Read from conn.go.  `bNil` says whether the destination slice b
is nil; `blen` is len(b).  The nil check comes first; then the
nonblocking select over the two signals with the pending-buffer check in
its default branch (copy(b, pending) copies min(len b, len pending)
bytes and the pending buffer is re-sliced past them); then the blocking
select, whose chunk case copies what fits and appends the remainder of
the chunk to the pending buffer. -/
def Conn.Read (c : Conn) (bNil : Bool) (blen : Nat) (pick : Bool) (ev : RxEvent) : ReadResult :=
  if bNil then { n := 0, bytesOut := [], err := none, conn := c }
  else
    match selectNonblocking c.closed c.rxDeadline.fired pick with
    | Sig.closedSig => { n := 0, bytesOut := [], err := some NetErr.eof, conn := c }
    | Sig.deadlineSig => { n := 0, bytesOut := [], err := some NetErr.deadlineExceeded, conn := c }
    | Sig.noSignal =>
      if 0 < c.rxDataPending.length then
        let n := min blen c.rxDataPending.length
        { n := n
          bytesOut := c.rxDataPending.take n
          err := none
          conn := { c with rxDataPending := c.rxDataPending.drop n } }
      else
        match ev with
        | RxEvent.closedSig => { n := 0, bytesOut := [], err := some NetErr.eof, conn := c }
        | RxEvent.deadlineSig => { n := 0, bytesOut := [], err := some NetErr.deadlineExceeded, conn := c }
        | RxEvent.chanClosed => { n := 0, bytesOut := [], err := some NetErr.eof, conn := c }
        | RxEvent.chunk data =>
          let n := min blen data.length
          { n := n
            bytesOut := data.take n
            err := none
            conn := { c with rxDataPending := c.rxDataPending ++ data.drop n } }

/-- Resolution of the blocking select in conn.Write: which case the wait
observed first — the cancellation signal, the write-deadline signal, or
the asynchronous inner write delivering its (n, err) result on the
txResult channel. -/
inductive TxEvent where
  | closedSig
  | deadlineSig
  | completed (n : Nat) (err : Option NetErr)
deriving DecidableEq, Repr

/-- conn.Write from conn.go.  `bNil` says whether the source slice b is
nil; `b` is its contents.  After the nil check the source is copied and
an asynchronous full write of the copy is launched; the caller blocks on
the select resolved by `ev`. -/
def Conn.Write (_ : Conn) (bNil : Bool) (b : List Nat) (ev : TxEvent) : Nat × Option NetErr :=
  if bNil then (0, none)
  else
    match ev with
    | TxEvent.closedSig => (0, some NetErr.eof)
    | TxEvent.deadlineSig => (0, some NetErr.deadlineExceeded)
    | TxEvent.completed n err => (n, err)

/-- conn.Close from conn.go: closes the inner stream (whose error is
passed through verbatim) and then, via defer, cancels the context. -/
def Conn.Close (c : Conn) (innerCloseErr : Option NetErr) : Option NetErr × Conn :=
  (innerCloseErr, { c with closed := true })

/-- conn.SetReadDeadline from conn.go: a nonblocking select on
ctx.Done(); if the connection is closed return net.ErrClosed without any
change, otherwise forward t to rxDeadline.Set and return nil. -/
def Conn.SetReadDeadline (c : Conn) (t : Int) : Option NetErr × Conn :=
  if c.closed then (some NetErr.errClosed, c)
  else (none, { c with rxDeadline := c.rxDeadline.set t })

/-- conn.SetWriteDeadline from conn.go: same gate, forwarding t to
txDeadline.Set. -/
def Conn.SetWriteDeadline (c : Conn) (t : Int) : Option NetErr × Conn :=
  if c.closed then (some NetErr.errClosed, c)
  else (none, { c with txDeadline := c.txDeadline.set t })

/-- conn.SetDeadline from conn.go: SetReadDeadline first, returning its
error on failure, otherwise SetWriteDeadline. -/
def Conn.SetDeadline (c : Conn) (t : Int) : Option NetErr × Conn :=
  match c.SetReadDeadline t with
  | (some e, c2) => (some e, c2)
  | (none, c2) => c2.SetWriteDeadline t

/-- Outcome of one iteration of the reader pump loop: the chunk
published onto the rxData channel during this iteration (if any), and
whether the loop stops after it (running the deferred close of rxData
and of the connection). -/
structure PumpIter where
  published : Option (List Nat)
  stops     : Bool
deriving DecidableEq, Repr

/-- One iteration of conn.continouslyReadIntoBuffer from conn.go.  If
ctx.Done() is ready the loop returns at once; otherwise the inner read
produced `bytes` (n = bytes.length) and error `err`: when n > 0 a copy
of exactly those n bytes is published onto rxData, and the loop stops
exactly when err is non-nil. -/
def continouslyReadIntoBufferStep (ctxDone : Bool) (bytes : List Nat) (err : Option NetErr) : PumpIter :=
  if ctxDone then { published := none, stops := true }
  else { published := if 0 < bytes.length then some bytes else none, stops := err.isSome }

/-- Effect on the connection state of the pump loop exiting: the
deferred c.Close() runs (cancelling the context) and rxData is closed. -/
def pumpShutdown (c : Conn) : Conn :=
  { c with closed := true }

/-- The spec sentinel check errors.Is(err, os.ErrDeadlineExceeded),
modelling the standard library's sentinel comparison. -/
def errorsIs (err target : NetErr) : Bool :=
  err == target

/-- The timeout classification of an error (the Timeout() method of
net.Error): true exactly for the deadline-exceeded sentinel among the
errors this wrapper produces. -/
def NetErr.isTimeout : NetErr → Bool
  | NetErr.deadlineExceeded => true
  | _ => false

/-- Driver for repeated Read calls while the pending buffer is
non-empty: for each requested destination size, performs one Read
(stopping early once the pending buffer is exhausted) and collects the
bytes each call returned. -/
def drainPending (c : Conn) (sizes : List Nat) : List (List Nat) × Conn :=
  match sizes with
  | [] => ([], c)
  | k :: ks =>
    if c.rxDataPending.isEmpty then ([], c)
    else
      let r := Conn.Read c false k true RxEvent.chanClosed
      let rest := drainPending r.conn ks
      (r.bytesOut :: rest.1, rest.2)

/-- Driver for the oversized-chunk scenario: one Read that receives the
chunk `data` from the handoff channel, followed by drain reads of the
given sizes; returns every call's returned bytes in order and the final
state. -/
def chunkThenDrain (c : Conn) (data : List Nat) (b0 : Nat) (pick : Bool) (sizes : List Nat) :
    List (List Nat) × Conn :=
  let r0 := Conn.Read c false b0 pick (RxEvent.chunk data)
  let rest := drainPending r0.conn sizes
  (r0.bytesOut :: rest.1, rest.2)

/-- The connection state immediately after WithDeadlines returns: not
closed, empty pending buffer, both deadlines unset and unfired. -/
def freshConn : Conn :=
  { closed := false
    rxDataPending := []
    rxDeadline := { expiry := 0, fired := false }
    txDeadline := { expiry := 0, fired := false } }

example : (Conn.Read freshConn false 5 true (RxEvent.chunk [1, 2, 3, 4, 5, 6, 7])).bytesOut = [1, 2, 3, 4, 5] := by decide

example : (Conn.Read freshConn false 5 true (RxEvent.chunk [1, 2, 3, 4, 5, 6, 7])).conn.rxDataPending = [6, 7] := by decide

lemma selectNonblocking_none (pick : Bool) : selectNonblocking false false pick = Sig.noSignal := by
  cases pick <;> rfl

lemma Read_pending_eq (c : Conn) (blen : Nat) (pick : Bool) (ev : RxEvent)
    (hc : c.closed = false) (hf : c.rxDeadline.fired = false) (hp : c.rxDataPending ≠ []) :
    Conn.Read c false blen pick ev =
      { n := min blen c.rxDataPending.length
        bytesOut := c.rxDataPending.take (min blen c.rxDataPending.length)
        err := none
        conn := { c with rxDataPending := c.rxDataPending.drop (min blen c.rxDataPending.length) } } := by
  have hlen : 0 < c.rxDataPending.length := List.length_pos.mpr hp
  simp [Conn.Read, hc, hf, selectNonblocking, hlen]

lemma Read_chunk_eq (c : Conn) (blen : Nat) (pick : Bool) (data : List Nat)
    (hc : c.closed = false) (hf : c.rxDeadline.fired = false) (hp : c.rxDataPending = []) :
    Conn.Read c false blen pick (RxEvent.chunk data) =
      { n := min blen data.length
        bytesOut := data.take (min blen data.length)
        err := none
        conn := { c with rxDataPending := data.drop (min blen data.length) } } := by
  simp [Conn.Read, hc, hf, selectNonblocking, hp]

lemma drainPending_spec (sizes : List Nat) : ∀ (c : Conn), c.closed = false →
    c.rxDeadline.fired = false →
    ((drainPending c sizes).1.flatten ++ (drainPending c sizes).2.rxDataPending = c.rxDataPending ∧
     (drainPending c sizes).2.closed = false ∧
     (drainPending c sizes).2.rxDeadline.fired = false) := by
  induction sizes with
  | nil =>
    intro c hc hf
    simp [drainPending, hc, hf]
  | cons k ks ih =>
    intro c hc hf
    by_cases hp : c.rxDataPending.isEmpty
    · simp [drainPending, hp, hc, hf]
    · have hp2 : c.rxDataPending ≠ [] := by
        intro h
        rw [h] at hp
        exact hp rfl
      have hr := Read_pending_eq c k true RxEvent.chanClosed hc hf hp2
      have ih2 := ih { c with rxDataPending := c.rxDataPending.drop (min k c.rxDataPending.length) } hc hf
      simp only [drainPending, hp, if_neg, Bool.false_eq_true, ite_false, hr]
      refine ⟨?_, ih2.2.1, ih2.2.2⟩
      rw [List.flatten, List.append_assoc, ih2.1]
      exact List.take_append_drop _ _

lemma drainPending_ones (k : Nat) : ∀ (c : Conn), c.closed = false →
    c.rxDeadline.fired = false → c.rxDataPending.length ≤ k →
    (drainPending c (List.replicate k 1)).2.rxDataPending = [] := by
  induction k with
  | zero =>
    intro c hc hf hl
    have hnil : c.rxDataPending = [] := List.length_eq_zero.mp (Nat.le_zero.mp hl)
    simp [drainPending, hnil]
  | succ k ih =>
    intro c hc hf hl
    by_cases hp : c.rxDataPending.isEmpty
    · rw [List.replicate_succ]
      simp only [drainPending, hp, ite_true]
      exact List.isEmpty_iff.mp hp
    · have hp2 : c.rxDataPending ≠ [] := by
        intro h
        rw [h] at hp
        exact hp rfl
      have hlen : 0 < c.rxDataPending.length := List.length_pos.mpr hp2
      have hmin : min 1 c.rxDataPending.length = 1 := Nat.min_eq_left hlen
      have hr := Read_pending_eq c 1 true RxEvent.chanClosed hc hf hp2
      rw [List.replicate_succ]
      simp only [drainPending, hp, Bool.false_eq_true, ite_false, hr]
      apply ih
      · exact hc
      · exact hf
      · simp only [List.length_drop, hmin]
        omega

/-- C1: a chunk dequeued into an empty pending buffer with no signal set
is delivered exactly once and in order across repeated Read calls with
arbitrary (in particular arbitrarily small) destination buffers: the
first Read returns the first min(len b, len chunk) bytes with no error
and stashes the remainder in the pending buffer; the bytes returned by
the consecutive calls, concatenated with whatever is still pending,
always reconstruct the chunk exactly (contiguous, non-overlapping,
order-preserving slices), and draining with one-byte buffers returns the
whole chunk. -/
theorem c1_oversized_chunk_exact_in_order_delivery (c : Conn) (data : List Nat) (b0 : Nat)
    (pick : Bool) (sizes : List Nat)
    (hc : c.closed = false) (hf : c.rxDeadline.fired = false) (hp : c.rxDataPending = []) :
    (Conn.Read c false b0 pick (RxEvent.chunk data)).err = none ∧
    (Conn.Read c false b0 pick (RxEvent.chunk data)).bytesOut = data.take (min b0 data.length) ∧
    (Conn.Read c false b0 pick (RxEvent.chunk data)).conn.rxDataPending = data.drop (min b0 data.length) ∧
    (chunkThenDrain c data b0 pick sizes).1.flatten ++ (chunkThenDrain c data b0 pick sizes).2.rxDataPending = data ∧
    (chunkThenDrain c data b0 pick (List.replicate data.length 1)).1.flatten = data := by
  have hr := Read_chunk_eq c b0 pick data hc hf hp
  refine ⟨by rw [hr], by rw [hr], by rw [hr], ?_, ?_⟩
  · have hs := drainPending_spec sizes { c with rxDataPending := data.drop (min b0 data.length) } hc hf
    simp only [chunkThenDrain, hr, List.flatten_cons, List.append_assoc]
    rw [hs.1]
    exact List.take_append_drop _ _
  · have hlen : (data.drop (min b0 data.length)).length ≤ data.length := by
      rw [List.length_drop]
      omega
    have hone := drainPending_ones data.length { c with rxDataPending := data.drop (min b0 data.length) } hc hf hlen
    have hs := drainPending_spec (List.replicate data.length 1) { c with rxDataPending := data.drop (min b0 data.length) } hc hf
    have hjoin := hs.1
    rw [hone, List.append_nil] at hjoin
    simp only [chunkThenDrain, hr, List.flatten_cons]
    rw [hjoin]
    exact List.take_append_drop _ _

/-- Witness for C1 at a concrete input: the scenario of a 7-byte chunk
read through a 2-byte buffer and then drained. -/
theorem c1_oversized_chunk_exact_in_order_delivery_witness :
    freshConn.closed = false ∧ freshConn.rxDeadline.fired = false ∧ freshConn.rxDataPending = [] ∧
    ((Conn.Read freshConn false 2 true (RxEvent.chunk [10, 11, 12, 13, 14, 15, 16])).err = none ∧
     (Conn.Read freshConn false 2 true (RxEvent.chunk [10, 11, 12, 13, 14, 15, 16])).bytesOut =
       [10, 11, 12, 13, 14, 15, 16].take (min 2 [10, 11, 12, 13, 14, 15, 16].length) ∧
     (Conn.Read freshConn false 2 true (RxEvent.chunk [10, 11, 12, 13, 14, 15, 16])).conn.rxDataPending =
       [10, 11, 12, 13, 14, 15, 16].drop (min 2 [10, 11, 12, 13, 14, 15, 16].length) ∧
     (chunkThenDrain freshConn [10, 11, 12, 13, 14, 15, 16] 2 true [3, 1]).1.flatten ++
       (chunkThenDrain freshConn [10, 11, 12, 13, 14, 15, 16] 2 true [3, 1]).2.rxDataPending =
       [10, 11, 12, 13, 14, 15, 16] ∧
     (chunkThenDrain freshConn [10, 11, 12, 13, 14, 15, 16] 2 true
       (List.replicate [10, 11, 12, 13, 14, 15, 16].length 1)).1.flatten =
       [10, 11, 12, 13, 14, 15, 16]) :=
  ⟨rfl, rfl, rfl,
   c1_oversized_chunk_exact_in_order_delivery freshConn [10, 11, 12, 13, 14, 15, 16] 2 true [3, 1] rfl rfl rfl⟩

/-- A connection with undelivered pending bytes, no signal set. -/
def pendingConn : Conn :=
  { closed := false
    rxDataPending := [9, 8]
    rxDeadline := { expiry := 0, fired := false }
    txDeadline := { expiry := 0, fired := false } }

/-- A closed connection (ctx cancelled), deadline signal not fired. -/
def closedConn : Conn :=
  { closed := true
    rxDataPending := []
    rxDeadline := { expiry := 0, fired := false }
    txDeadline := { expiry := 0, fired := false } }

/-- C2 counterexample: the claim asserts the pending fast path applies
regardless of whether the cancellation signal is already set, but on a
closed connection with one pending byte and a one-byte destination, Read
takes the ready cancellation case of the first select (the default
branch holding the pending check is skipped), returning (0, EOF) with
the pending buffer untouched instead of the claimed (1, nil) with the
buffer shrunk. -/
theorem c2_pending_fast_path_counterexample :
    (Conn.Read (Conn.mk true [5] (Deadline.mk 0 false) (Deadline.mk 0 false)) false 1 true RxEvent.chanClosed).err = some NetErr.eof ∧
    (Conn.Read (Conn.mk true [5] (Deadline.mk 0 false) (Deadline.mk 0 false)) false 1 true RxEvent.chanClosed).n = 0 ∧
    (Conn.Read (Conn.mk true [5] (Deadline.mk 0 false) (Deadline.mk 0 false)) false 1 true RxEvent.chanClosed).conn.rxDataPending = [5] := by
  decide

/-- C2 amended: provided neither the cancellation signal nor the
read-deadline signal is set, a Read with a non-empty destination while
the pending buffer is non-empty copies min(len b, len pending) bytes
(at least one), shrinks the pending buffer by exactly that amount, and
returns the copied count with no error, independently of the blocking
select event (no new chunk is pulled from the handoff queue). -/
theorem c2_pending_fast_path_drains_before_queue (c : Conn) (blen : Nat) (pick : Bool)
    (ev ev2 : RxEvent)
    (hc : c.closed = false) (hf : c.rxDeadline.fired = false)
    (hp : c.rxDataPending ≠ []) (hb : 0 < blen) :
    (Conn.Read c false blen pick ev).n = min blen c.rxDataPending.length ∧
    0 < (Conn.Read c false blen pick ev).n ∧
    (Conn.Read c false blen pick ev).err = none ∧
    (Conn.Read c false blen pick ev).bytesOut = c.rxDataPending.take (min blen c.rxDataPending.length) ∧
    (Conn.Read c false blen pick ev).conn.rxDataPending = c.rxDataPending.drop (min blen c.rxDataPending.length) ∧
    Conn.Read c false blen pick ev = Conn.Read c false blen pick ev2 := by
  have hr := Read_pending_eq c blen pick ev hc hf hp
  have hr2 := Read_pending_eq c blen pick ev2 hc hf hp
  have hpos : 0 < min blen c.rxDataPending.length :=
    Nat.lt_min.mpr ⟨hb, List.length_pos.mpr hp⟩
  refine ⟨by rw [hr], ?_, by rw [hr], by rw [hr], by rw [hr], by rw [hr, hr2]⟩
  rw [hr]
  exact hpos

/-- Witness for the amended C2 at a concrete input. -/
theorem c2_pending_fast_path_drains_before_queue_witness :
    pendingConn.closed = false ∧ pendingConn.rxDeadline.fired = false ∧
    pendingConn.rxDataPending ≠ [] ∧ 0 < 1 ∧
    ((Conn.Read pendingConn false 1 true RxEvent.chanClosed).n = min 1 pendingConn.rxDataPending.length ∧
     0 < (Conn.Read pendingConn false 1 true RxEvent.chanClosed).n ∧
     (Conn.Read pendingConn false 1 true RxEvent.chanClosed).err = none ∧
     (Conn.Read pendingConn false 1 true RxEvent.chanClosed).bytesOut =
       pendingConn.rxDataPending.take (min 1 pendingConn.rxDataPending.length) ∧
     (Conn.Read pendingConn false 1 true RxEvent.chanClosed).conn.rxDataPending =
       pendingConn.rxDataPending.drop (min 1 pendingConn.rxDataPending.length) ∧
     Conn.Read pendingConn false 1 true RxEvent.chanClosed =
       Conn.Read pendingConn false 1 true RxEvent.closedSig) :=
  ⟨rfl, rfl, by decide, by decide,
   c2_pending_fast_path_drains_before_queue pendingConn 1 true RxEvent.chanClosed RxEvent.closedSig
     rfl rfl (by decide) (by decide)⟩

lemma selectNonblocking_closed_only (pick : Bool) :
    selectNonblocking true false pick = Sig.closedSig := by
  cases pick <;> rfl

/-- C3 counterexample: after closure, a subsequent Read need not return
end-of-stream: on a connection that is closed and whose read deadline
has also fired, the first select has both signal cases ready and may
resolve to the deadline case, returning the deadline-exceeded error
instead of EOF. -/
theorem c3_counterexample :
    (Conn.Read (Conn.mk true [] (Deadline.mk 3 true) (Deadline.mk 0 false)) false 1 false RxEvent.chanClosed).err = some NetErr.deadlineExceeded ∧
    (Conn.Read (Conn.mk true [] (Deadline.mk 3 true) (Deadline.mk 0 false)) false 1 false RxEvent.chanClosed).err ≠ some NetErr.eof := by
  decide

/-- C3 amended: when the underlying read reports an error, the reader
pump stops its loop (running its deferred close of the connection and of
the rxData channel) and publishes no error value to any caller (an
iteration publishes either nothing or exactly the bytes the stream
produced).  After the resulting closure — identical for pump-initiated
and explicit Close — any subsequent Read with a non-nil buffer returns
(0, end-of-stream) provided the read-deadline signal is not also set,
and a Read blocked on the handoff select that observes the cancellation
signal or the channel closing likewise returns end-of-stream. -/
theorem c3_pump_terminal_error_becomes_closure (bytes : List Nat) (e : NetErr)
    (ie : Option NetErr) (c c2 : Conn) (blen : Nat) (pick : Bool) (ev : RxEvent) :
    (continouslyReadIntoBufferStep false bytes (some e)).stops = true ∧
    (∀ ch, (continouslyReadIntoBufferStep false bytes (some e)).published = some ch → ch = bytes) ∧
    (pumpShutdown c).closed = true ∧
    (Conn.Close c ie).2 = pumpShutdown c ∧
    (c.rxDeadline.fired = false →
      Conn.Read (pumpShutdown c) false blen pick ev =
        { n := 0, bytesOut := [], err := some NetErr.eof, conn := pumpShutdown c }) ∧
    (c2.closed = false → c2.rxDeadline.fired = false → c2.rxDataPending = [] →
      (Conn.Read c2 false blen pick RxEvent.closedSig).err = some NetErr.eof ∧
      (Conn.Read c2 false blen pick RxEvent.chanClosed).err = some NetErr.eof) := by
  refine ⟨rfl, ?_, rfl, rfl, ?_, ?_⟩
  · intro ch h
    by_cases hb : 0 < bytes.length
    · simp [continouslyReadIntoBufferStep, hb] at h
      exact h.symm
    · simp [continouslyReadIntoBufferStep, hb] at h
  · intro hf
    simp [Conn.Read, pumpShutdown, selectNonblocking, hf]
  · intro h1 h2 h3
    constructor <;> simp [Conn.Read, selectNonblocking, h1, h2, h3]

/-- Witness for the amended C3 at a concrete input. -/
theorem c3_pump_terminal_error_becomes_closure_witness :
    (continouslyReadIntoBufferStep false [4, 5] (some (NetErr.transport 7))).stops = true ∧
    ((continouslyReadIntoBufferStep false [4, 5] (some (NetErr.transport 7))).published = some [4, 5] → ([4, 5] : List Nat) = [4, 5]) ∧
    (pumpShutdown freshConn).closed = true ∧
    (Conn.Close freshConn none).2 = pumpShutdown freshConn ∧
    (freshConn.rxDeadline.fired = false ∧
      Conn.Read (pumpShutdown freshConn) false 3 true RxEvent.chanClosed =
        { n := 0, bytesOut := [], err := some NetErr.eof, conn := pumpShutdown freshConn }) ∧
    ((Conn.Read freshConn false 3 true RxEvent.closedSig).err = some NetErr.eof ∧
     (Conn.Read freshConn false 3 true RxEvent.chanClosed).err = some NetErr.eof) := by
  have h := c3_pump_terminal_error_becomes_closure [4, 5] (NetErr.transport 7) none freshConn freshConn 3 true RxEvent.chanClosed
  exact ⟨h.1, fun hp => rfl, h.2.2.1, h.2.2.2.1, ⟨rfl, h.2.2.2.2.1 rfl⟩, h.2.2.2.2.2 rfl rfl rfl⟩

/-- A closed connection still holding undelivered pending bytes. -/
def closedPendingConn : Conn :=
  { closed := true
    rxDataPending := [7, 7]
    rxDeadline := { expiry := 0, fired := false }
    txDeadline := { expiry := 0, fired := false } }

/-- C8 counterexample: on a closed connection whose read deadline has
also fired and which still holds a pending byte, Read may resolve the
first select to the deadline case and return deadline-exceeded, not
end-of-stream — so the claim that every post-close Read returns
end-of-stream fails (the pending byte is indeed not delivered). -/
theorem c8_counterexample :
    (Conn.Read (Conn.mk true [7] (Deadline.mk 3 true) (Deadline.mk 0 false)) false 1 false RxEvent.chanClosed).err = some NetErr.deadlineExceeded ∧
    (Conn.Read (Conn.mk true [7] (Deadline.mk 3 true) (Deadline.mk 0 false)) false 1 false RxEvent.chanClosed).err ≠ some NetErr.eof := by
  decide

/-- C8 amended: once the cancellation signal is set, every subsequent
Read with a non-nil buffer returns zero bytes with a terminal error —
end-of-stream, or deadline-exceeded when the read-deadline signal is
also set — and leaves the connection state (in particular the pending
buffer) untouched: bytes pending at close time are never delivered. -/
theorem c8_pending_bytes_never_delivered_after_close (c : Conn) (blen : Nat) (pick : Bool)
    (ev : RxEvent) (hc : c.closed = true) :
    (Conn.Read c false blen pick ev).n = 0 ∧
    (Conn.Read c false blen pick ev).bytesOut = [] ∧
    ((Conn.Read c false blen pick ev).err = some NetErr.eof ∨
     (Conn.Read c false blen pick ev).err = some NetErr.deadlineExceeded) ∧
    (Conn.Read c false blen pick ev).conn = c := by
  have hsel : selectNonblocking c.closed c.rxDeadline.fired pick = Sig.closedSig ∨
      selectNonblocking c.closed c.rxDeadline.fired pick = Sig.deadlineSig := by
    rw [hc]
    cases c.rxDeadline.fired <;> cases pick <;> simp [selectNonblocking]
  rcases hsel with h | h <;> simp [Conn.Read, h]

/-- Witness for the amended C8 at a concrete input. -/
theorem c8_pending_bytes_never_delivered_after_close_witness :
    closedPendingConn.closed = true ∧
    ((Conn.Read closedPendingConn false 1 true RxEvent.chanClosed).n = 0 ∧
     (Conn.Read closedPendingConn false 1 true RxEvent.chanClosed).bytesOut = [] ∧
     ((Conn.Read closedPendingConn false 1 true RxEvent.chanClosed).err = some NetErr.eof ∨
      (Conn.Read closedPendingConn false 1 true RxEvent.chanClosed).err = some NetErr.deadlineExceeded) ∧
     (Conn.Read closedPendingConn false 1 true RxEvent.chanClosed).conn = closedPendingConn) :=
  ⟨rfl, c8_pending_bytes_never_delivered_after_close closedPendingConn 1 true RxEvent.chanClosed rfl⟩

/-- C10: a Read with a nil destination returns (0, nil) unconditionally:
the nil check precedes every signal check, so no error is reported even
in states — connection closed, or read deadline fired — in which the
same Read with a non-nil buffer returns an error. -/
theorem c10_nil_read_before_signal_checks (c : Conn) (blen : Nat) (pick : Bool) (ev : RxEvent) :
    Conn.Read c true blen pick ev = { n := 0, bytesOut := [], err := none, conn := c } ∧
    (c.closed = true → (Conn.Read c false blen pick ev).err.isSome = true) ∧
    (c.rxDeadline.fired = true → (Conn.Read c false blen pick ev).err.isSome = true) := by
  refine ⟨rfl, ?_, ?_⟩
  · intro hc
    cases hf : c.rxDeadline.fired <;> cases pick <;>
      simp [Conn.Read, selectNonblocking, hc, hf]
  · intro hf
    cases hc : c.closed <;> cases pick <;>
      simp [Conn.Read, selectNonblocking, hc, hf]

/-- Witness for C10 at a concrete input: a nil Read on a closed
connection returns (0, nil) while the non-nil Read errors. -/
theorem c10_nil_read_before_signal_checks_witness :
    Conn.Read closedConn true 1 true RxEvent.chanClosed =
      { n := 0, bytesOut := [], err := none, conn := closedConn } ∧
    closedConn.closed = true ∧
    (Conn.Read closedConn false 1 true RxEvent.chanClosed).err.isSome = true :=
  ⟨(c10_nil_read_before_signal_checks closedConn 1 true RxEvent.chanClosed).1, rfl,
   (c10_nil_read_before_signal_checks closedConn 1 true RxEvent.chanClosed).2.1 rfl⟩

/-- C7 counterexample: an empty but non-nil destination buffer is not a
no-op: it passes the nil check (Go compares the slice against nil, not
its length) and proceeds to the signal checks, so on a closed connection
a Read with an empty non-nil buffer returns EOF, and a Write with an
empty non-nil source whose select observes the cancellation signal
returns EOF — both contradicting the claimed (0, nil). -/
theorem c7_counterexample :
    (Conn.Read closedConn false 0 true RxEvent.chanClosed).err = some NetErr.eof ∧
    Conn.Write closedConn false [] TxEvent.closedSig = (0, some NetErr.eof) := by
  decide

/-- C7 amended: a Read with a nil destination and a Write with a nil
source are each a no-op returning zero bytes and no error, leaving the
connection state untouched and independent of any signal or select
event; an empty non-nil buffer receives no such special casing. -/
theorem c7_nil_buffer_noop (c : Conn) (blen : Nat) (b : List Nat) (pick : Bool)
    (rev : RxEvent) (tev : TxEvent) :
    Conn.Read c true blen pick rev = { n := 0, bytesOut := [], err := none, conn := c } ∧
    Conn.Write c true b tev = (0, none) :=
  ⟨rfl, rfl⟩

/-- C4: after the connection is closed, both direction-specific deadline
setters fail with the closed-connection error and change nothing; on an
open connection each setter forwards t to its own deadline primitive's
Set, returns no error, and touches nothing else. -/
theorem c4_deadline_setters_closed_gate (c : Conn) (t : Int) :
    (c.closed = true →
      Conn.SetReadDeadline c t = (some NetErr.errClosed, c) ∧
      Conn.SetWriteDeadline c t = (some NetErr.errClosed, c)) ∧
    (c.closed = false →
      (Conn.SetReadDeadline c t).1 = none ∧
      (Conn.SetReadDeadline c t).2.rxDeadline = c.rxDeadline.set t ∧
      (Conn.SetReadDeadline c t).2.txDeadline = c.txDeadline ∧
      (Conn.SetReadDeadline c t).2.rxDataPending = c.rxDataPending ∧
      (Conn.SetWriteDeadline c t).1 = none ∧
      (Conn.SetWriteDeadline c t).2.txDeadline = c.txDeadline.set t ∧
      (Conn.SetWriteDeadline c t).2.rxDeadline = c.rxDeadline) := by
  constructor <;> intro h <;>
    simp [Conn.SetReadDeadline, Conn.SetWriteDeadline, h]

/-- Witness for C4 at concrete inputs: a closed and an open connection. -/
theorem c4_deadline_setters_closed_gate_witness :
    closedConn.closed = true ∧
    (Conn.SetReadDeadline closedConn 5 = (some NetErr.errClosed, closedConn) ∧
     Conn.SetWriteDeadline closedConn 5 = (some NetErr.errClosed, closedConn)) ∧
    freshConn.closed = false ∧
    ((Conn.SetReadDeadline freshConn 5).1 = none ∧
     (Conn.SetReadDeadline freshConn 5).2.rxDeadline = freshConn.rxDeadline.set 5 ∧
     (Conn.SetReadDeadline freshConn 5).2.txDeadline = freshConn.txDeadline ∧
     (Conn.SetReadDeadline freshConn 5).2.rxDataPending = freshConn.rxDataPending ∧
     (Conn.SetWriteDeadline freshConn 5).1 = none ∧
     (Conn.SetWriteDeadline freshConn 5).2.txDeadline = freshConn.txDeadline.set 5 ∧
     (Conn.SetWriteDeadline freshConn 5).2.rxDeadline = freshConn.rxDeadline) :=
  ⟨rfl, (c4_deadline_setters_closed_gate closedConn 5).1 rfl, rfl,
   (c4_deadline_setters_closed_gate freshConn 5).2 rfl⟩

/-- C5: for a non-empty Write, when the wait observes the write-deadline
signal before the asynchronous inner write completes, Write returns zero
bytes with the deadline-exceeded error, which satisfies the timeout
classification and the errors.Is check against the deadline-exceeded
sentinel; when the inner write completes first, its (n, err) result is
returned verbatim. -/
theorem c5_write_deadline_race (c : Conn) (b : List Nat) (n : Nat) (e : Option NetErr)
    (hb : b ≠ []) :
    Conn.Write c false b TxEvent.deadlineSig = (0, some NetErr.deadlineExceeded) ∧
    NetErr.isTimeout NetErr.deadlineExceeded = true ∧
    errorsIs NetErr.deadlineExceeded NetErr.deadlineExceeded = true ∧
    Conn.Write c false b (TxEvent.completed n e) = (n, e) :=
  ⟨rfl, rfl, rfl, rfl⟩

/-- Witness for C5 at a concrete input. -/
theorem c5_write_deadline_race_witness :
    ([1] : List Nat) ≠ [] ∧
    (Conn.Write freshConn false [1] TxEvent.deadlineSig = (0, some NetErr.deadlineExceeded) ∧
     NetErr.isTimeout NetErr.deadlineExceeded = true ∧
     errorsIs NetErr.deadlineExceeded NetErr.deadlineExceeded = true ∧
     Conn.Write freshConn false [1] (TxEvent.completed 1 none) = (1, none)) :=
  ⟨by decide, c5_write_deadline_race freshConn [1] 1 none (by decide)⟩

/-- C6: SetDeadline(t) is SetReadDeadline(t) followed by
SetWriteDeadline(t) with short-circuiting: when SetReadDeadline fails,
its error and state are returned and the write deadline is left
untouched; when it succeeds, SetDeadline returns exactly the result of
SetWriteDeadline(t) on the state SetReadDeadline produced. -/
theorem c6_setdeadline_is_both_setters_short_circuit (c : Conn) (t : Int) :
    (∀ e, (Conn.SetReadDeadline c t).1 = some e →
      Conn.SetDeadline c t = Conn.SetReadDeadline c t ∧
      (Conn.SetDeadline c t).2.txDeadline = c.txDeadline) ∧
    ((Conn.SetReadDeadline c t).1 = none →
      Conn.SetDeadline c t = Conn.SetWriteDeadline (Conn.SetReadDeadline c t).2 t) := by
  cases hc : c.closed
  · refine ⟨?_, ?_⟩
    · intro e he
      simp [Conn.SetReadDeadline, hc] at he
    · intro h
      simp [Conn.SetDeadline, Conn.SetReadDeadline, Conn.SetWriteDeadline, hc]
  · refine ⟨?_, ?_⟩
    · intro e he
      simp [Conn.SetDeadline, Conn.SetReadDeadline, hc]
    · intro h
      simp [Conn.SetReadDeadline, hc] at h

/-- Witness for C6 at concrete inputs: the short-circuit on a closed
connection and the composition on an open one. -/
theorem c6_setdeadline_is_both_setters_short_circuit_witness :
    (Conn.SetReadDeadline closedConn 5).1 = some NetErr.errClosed ∧
    (Conn.SetDeadline closedConn 5 = Conn.SetReadDeadline closedConn 5 ∧
     (Conn.SetDeadline closedConn 5).2.txDeadline = closedConn.txDeadline) ∧
    (Conn.SetReadDeadline freshConn 5).1 = none ∧
    Conn.SetDeadline freshConn 5 = Conn.SetWriteDeadline (Conn.SetReadDeadline freshConn 5).2 5 :=
  ⟨by decide,
   (c6_setdeadline_is_both_setters_short_circuit closedConn 5).1 NetErr.errClosed (by decide),
   by decide,
   (c6_setdeadline_is_both_setters_short_circuit freshConn 5).2 (by decide)⟩

/-- C9: a pump iteration that publishes a chunk publishes exactly the
bytes the inner read produced, and only when there is at least one of
them — so every chunk on the handoff queue is non-empty; consequently a
Read with a non-empty destination that receives a chunk from the queue
returns at least one byte and no error, never (0, nil). -/
theorem c9_queue_chunks_nonempty (bytes : List Nat) (err : Option NetErr) (ch : List Nat)
    (c : Conn) (blen : Nat) (pick : Bool) (data : List Nat) :
    ((continouslyReadIntoBufferStep false bytes err).published = some ch →
      ch = bytes ∧ ch ≠ []) ∧
    (c.closed = false → c.rxDeadline.fired = false → c.rxDataPending = [] →
      0 < blen → data ≠ [] →
      0 < (Conn.Read c false blen pick (RxEvent.chunk data)).n ∧
      (Conn.Read c false blen pick (RxEvent.chunk data)).err = none) := by
  constructor
  · intro h
    by_cases hb : 0 < bytes.length
    · simp [continouslyReadIntoBufferStep, hb] at h
      subst h
      exact ⟨rfl, List.length_pos.mp hb⟩
    · simp [continouslyReadIntoBufferStep, hb] at h
  · intro hc hf hp hblen hdata
    have hr := Read_chunk_eq c blen pick data hc hf hp
    rw [hr]
    exact ⟨Nat.lt_min.mpr ⟨hblen, List.length_pos.mpr hdata⟩, rfl⟩

/-- Witness for C9 at a concrete input. -/
theorem c9_queue_chunks_nonempty_witness :
    ((continouslyReadIntoBufferStep false [3, 4] none).published = some [3, 4] ∧
     (([3, 4] : List Nat) = [3, 4] ∧ ([3, 4] : List Nat) ≠ [])) ∧
    (freshConn.closed = false ∧ 0 < 1 ∧ ([3, 4] : List Nat) ≠ [] ∧
     0 < (Conn.Read freshConn false 1 true (RxEvent.chunk [3, 4])).n ∧
     (Conn.Read freshConn false 1 true (RxEvent.chunk [3, 4])).err = none) := by
  have h := c9_queue_chunks_nonempty [3, 4] none [3, 4] freshConn 1 true [3, 4]
  have h2 := h.2 rfl rfl rfl (by decide) (by decide)
  exact ⟨⟨by decide, h.1 (by decide)⟩, ⟨rfl, by decide, by decide, h2.1, h2.2⟩⟩
